import Mathlib

set_option autoImplicit false

/-!
Verification of the manifest-reconciliation core of meshery-istio
(`istio/istio.go`) against its natural-language specification.

The Go code is shallowly embedded: each reconciler function becomes a pure
Lean function that, in addition to its Go result, returns the ordered list
of calls it issued against the dynamic Kubernetes API surface.  The API
surface itself (`k8sDynamicClient`) is an external collaborator and is
modelled as an oracle: a record of pure functions, one per verb, with or
without a namespace qualifier.  Go errors are modelled by their class
(the only properties the code ever inspects are `kubeerror.IsAlreadyExists`
and whether the message contains the "server does not allow this method on
the requested resource" marker); `errors.Wrap`/`Wrapf` change only the
message, never the class, and `errors.Wrap nil msg = nil` (pkg/errors
v0.9.1), which is modelled explicitly where it matters.
-/

namespace MesheryIstio

/-! ### Go standard-library string helpers

Models of the `strings` functions the code uses (`strings.Split`,
`strings.ToLower`, `strings.TrimSpace`, `unicode.IsSpace` for the ASCII
range relevant here), defined by structural recursion on character lists
so that they are easy both to execute and to reason about. -/

/-- ASCII fragment of Go's `unicode.IsSpace`, as used by `strings.TrimSpace`. -/
def goIsSpace (c : Char) : Bool :=
  c == ' ' || c == '\t' || c == '\n' || c == '\x0b' || c == '\x0c' || c == '\r'

/-- Split a character list at every occurrence of `sep` (Go `strings.Split`
with a one-character separator: always returns at least one piece). -/
def splitOnChar (sep : Char) : List Char → List (List Char)
  | [] => [[]]
  | c :: cs =>
    if c == sep then [] :: splitOnChar sep cs
    else
      match splitOnChar sep cs with
      | [] => [[c]]
      | l :: ls => (c :: l) :: ls

/-- Go `strings.Split(s, sep)` for a one-character separator. -/
def goSplit (s : String) (sep : Char) : List String :=
  (splitOnChar sep s.data).map String.mk

/-- Drop a trailing run of characters satisfying `p`. -/
def dropTrailing (p : Char → Bool) (cs : List Char) : List Char :=
  (cs.reverse.dropWhile p).reverse

/-- Go `strings.TrimSpace` on a character list. -/
def goTrimSpaceL (cs : List Char) : List Char :=
  dropTrailing goIsSpace (cs.dropWhile goIsSpace)

/-- Go `strings.TrimSpace`. -/
def goTrimSpace (s : String) : String :=
  String.mk (goTrimSpaceL s.data)

/-- Go `strings.ToLower` (the kinds involved are ASCII, where
`Char.toLower` agrees with Go). -/
def goToLower (s : String) : String :=
  String.mk (s.data.map Char.toLower)

/-! ### Error model

`KubeErr` is the class of an error returned by the dynamic API surface.
The code inspects only two properties of an error: `kubeerror.IsAlreadyExists`
(checked in `createResource` on the fresh, unwrapped error) and whether the
message contains `"the server does not allow this method on the requested
resource"` (checked in `updateResource` and `executeRule`); wrapping with
`errors.Wrapf` prefixes the message and so preserves containment of the
marker, which the model reflects by carrying the class through wraps. -/

inductive KubeErr where
  | alreadyExists
  | methodNotAllowed
  | notFound
  | otherErr
  deriving DecidableEq, Repr

/-- `kubeerror.IsAlreadyExists`. -/
def KubeErr.isAlreadyExists : KubeErr → Bool
  | .alreadyExists => true
  | _ => false

/-- `strings.Contains(err.Error(), "the server does not allow this method on
the requested resource")`: only the method-not-allowed class carries that
marker in its message. -/
def KubeErr.hasMethodNotAllowedMsg : KubeErr → Bool
  | .methodNotAllowed => true
  | _ => false

/-- Errors produced by the reconciler functions themselves: a (possibly
wrapped) API-surface error, the `"mesh client has not been created"` guard
in `deleteResource`, or the runtime panic of the unchecked type assertion
`depl["spec"].(map[string]interface{})` in the deployments branch. -/
inductive RErr where
  | kube (e : KubeErr)
  | nilClient
  | panicSpecAssert
  deriving DecidableEq, Repr

def RErr.hasMethodNotAllowedMsg : RErr → Bool
  | .kube e => e.hasMethodNotAllowedMsg
  | _ => false

/-! ### Data model -/

/-- The `spec` mapping of a deployment-like object, reduced to the one field
the code touches (`spec1["replicas"] = 0`). -/
structure DeploySpec where
  replicas : Nat
  deriving DecidableEq, Repr

/-- An `unstructured.Unstructured` manifest document, reduced to the fields
the code reads or writes: `apiVersion`, `kind`, `metadata.name`,
`metadata.namespace` (`ns`), the five server-assigned identity fields
copied in `executeRule`, and the `spec` mapping used by the deployments
branch of `deleteResource` (`none` models an object without a `spec` map,
on which the Go type assertion would panic). -/
structure Unstructured where
  apiVersion : String := ""
  kind : String := ""
  name : String := ""
  ns : String := ""
  creationTimestamp : String := ""
  generateName : String := ""
  generation : Nat := 0
  selfLink : String := ""
  resourceVersion : String := ""
  spec : Option DeploySpec := none
  deriving DecidableEq, Repr

/-- `schema.GroupVersionResource`. -/
structure GroupVersionResource where
  group : String
  version : String
  resource : String
  deriving DecidableEq, Repr

/-! ### Resource Locator (`executeRule`, lines 210-238) -/

/-- The group/version split of `executeRule`:
`groupVersion := strings.Split(data.GetAPIVersion(), "/")`, then
`len == 2` assigns group and version, `len == 1` assigns only the version,
and any other length leaves both empty. -/
def splitGroupVersion (apiVersion : String) : String × String :=
  let groupVersion := goSplit apiVersion '/'
  if groupVersion.length == 2 then (groupVersion.getD 0 "", groupVersion.getD 1 "")
  else if groupVersion.length == 1 then ("", groupVersion.getD 0 "")
  else ("", "")

/-- The kind-to-resource switch of `executeRule`: the lower-cased kind is
pluralized through the irregular-plural exception table, falling back to
appending `s`. -/
def pluralizeKind (kindLower : String) : String :=
  if kindLower == "logentry" then "logentries"
  else if kindLower == "kubernetes" then "kubernetes"
  else if kindLower == "podsecuritypolicy" then "podsecuritypolicies"
  else if kindLower == "serviceentry" then "serviceentries"
  else kindLower ++ "s"

/-- The resource resolution performed inline by `executeRule`. -/
def resolveGVR (apiVersion kind : String) : GroupVersionResource :=
  let gv := splitGroupVersion apiVersion
  { group := gv.1, version := gv.2, resource := pluralizeKind (goToLower kind) }

/-! ### The API surface and the client -/

inductive Verb where
  | create
  | update
  | get
  | delete
  deriving DecidableEq, Repr

/-- One call issued against the dynamic API surface.  `namespaced` records
whether the call went through `.Namespace(...)` (the first attempt) or not
(the cluster-scoped fallback). -/
structure ApiCall where
  verb : Verb
  res : GroupVersionResource
  namespaced : Bool
  ns : String
  name : String
  deriving DecidableEq, Repr

def nsCall (v : Verb) (res : GroupVersionResource) (ns name : String) : ApiCall :=
  ⟨v, res, true, ns, name⟩

def clusterCall (v : Verb) (res : GroupVersionResource) (name : String) : ApiCall :=
  ⟨v, res, false, "", name⟩

/-- The dynamic API surface (`k8sDynamicClient`), as an oracle of pure
functions.  The `Option String` is the namespace qualifier: `some ns` for a
`.Namespace(ns)` call, `none` for a cluster-scoped call. -/
structure Api where
  createFn : GroupVersionResource → Option String → Unstructured → Except KubeErr Unit
  updateFn : GroupVersionResource → Option String → Unstructured → Except KubeErr Unit
  getFn : GroupVersionResource → Option String → String → Except KubeErr Unstructured
  deleteFn : GroupVersionResource → Option String → String → Except KubeErr Unit

/-- The slice of `Client` the reconciler uses: the dynamic client (with a
flag modelling `iClient.k8sDynamicClient == nil`). -/
structure Client where
  api : Api
  dynamicClientIsNil : Bool := false

/-! ### Reconciler (`createResource`, `getResource`, `updateResource`,
`deleteResource`), each returning its API-call trace next to its Go result. -/

/-- `createResource` (lines 73-86): namespaced create; an `IsAlreadyExists`
failure is not propagated (the condition `err != nil && !IsAlreadyExists(err)`
fails and control reaches `return nil`); any other failure triggers one
cluster-scoped retry with the same already-exists filtering. -/
def createResource (cl : Client) (res : GroupVersionResource) (data : Unstructured) :
    List ApiCall × Except RErr Unit :=
  match cl.api.createFn res (some data.ns) data with
  | .ok _ => ([nsCall .create res data.ns data.name], .ok ())
  | .error e =>
    if e.isAlreadyExists then ([nsCall .create res data.ns data.name], .ok ())
    else
      match cl.api.createFn res none data with
      | .ok _ =>
        ([nsCall .create res data.ns data.name, clusterCall .create res data.name], .ok ())
      | .error e2 =>
        if e2.isAlreadyExists then
          ([nsCall .create res data.ns data.name, clusterCall .create res data.name], .ok ())
        else
          ([nsCall .create res data.ns data.name, clusterCall .create res data.name],
            .error (.kube e2))

/-- `getResource` (lines 127-142): namespaced get, then cluster-scoped
fallback on any failure. -/
def getResource (cl : Client) (res : GroupVersionResource) (data : Unstructured) :
    List ApiCall × Except RErr Unstructured :=
  match cl.api.getFn res (some data.ns) data.name with
  | .ok obj => ([nsCall .get res data.ns data.name], .ok obj)
  | .error _ =>
    match cl.api.getFn res none data.name with
    | .ok obj =>
      ([nsCall .get res data.ns data.name, clusterCall .get res data.name], .ok obj)
    | .error e2 =>
      ([nsCall .get res data.ns data.name, clusterCall .get res data.name],
        .error (.kube e2))

/-- `updateResource` (lines 144-165): namespaced update; a failure whose
message carries the method-not-allowed marker is returned as-is, any other
failure triggers one cluster-scoped retry whose failure is returned
(wrapped or not — same class either way). -/
def updateResource (cl : Client) (res : GroupVersionResource) (data : Unstructured) :
    List ApiCall × Except RErr Unit :=
  match cl.api.updateFn res (some data.ns) data with
  | .ok _ => ([nsCall .update res data.ns data.name], .ok ())
  | .error e =>
    if e.hasMethodNotAllowedMsg then
      ([nsCall .update res data.ns data.name], .error (.kube e))
    else
      match cl.api.updateFn res none data with
      | .ok _ =>
        ([nsCall .update res data.ns data.name, clusterCall .update res data.name], .ok ())
      | .error e2 =>
        ([nsCall .update res data.ns data.name, clusterCall .update res data.name],
          .error (.kube e2))

/-- Lines 112-122 of `deleteResource`: the namespaced delete with its
cluster-scoped fallback. -/
def rawDeleteResource (cl : Client) (res : GroupVersionResource) (data : Unstructured) :
    List ApiCall × Except RErr Unit :=
  match cl.api.deleteFn res (some data.ns) data.name with
  | .ok _ => ([nsCall .delete res data.ns data.name], .ok ())
  | .error _ =>
    match cl.api.deleteFn res none data.name with
    | .ok _ =>
      ([nsCall .delete res data.ns data.name, clusterCall .delete res data.name], .ok ())
    | .error e2 =>
      ([nsCall .delete res data.ns data.name, clusterCall .delete res data.name],
        .error (.kube e2))

/-- `spec1["replicas"] = 0`. -/
def scaleToZero (sp : DeploySpec) : DeploySpec :=
  { sp with replicas := 0 }

/-- `deleteResource` (lines 88-125): nil-client guard; the default-namespace
guard (`res.Resource == "namespaces" && data.GetName() == "default"` returns
nil before any API call); the deployments branch (get, set replicas to 0,
update, aborting on a failure of either); then the delete itself with its
cluster-scoped fallback. -/
def deleteResource (cl : Client) (res : GroupVersionResource) (data : Unstructured) :
    List ApiCall × Except RErr Unit :=
  if cl.dynamicClientIsNil then ([], .error .nilClient)
  else if res.resource == "namespaces" && data.name == "default" then ([], .ok ())
  else if res.resource == "deployments" then
    match getResource cl res data with
    | (t1, .error e) => (t1, .error e)
    | (t1, .ok data1) =>
      match data1.spec with
      | none => (t1, .error .panicSpecAssert)
      | some sp =>
        match updateResource cl res { data1 with spec := some (scaleToZero sp) } with
        | (t2, .error e) => (t1 ++ t2, .error e)
        | (t2, .ok _) =>
          match rawDeleteResource cl res data with
          | (t3, r) => (t1 ++ t2 ++ t3, r)
  else rawDeleteResource cl res data

/-! ### `executeRule` (lines 204-290) -/

/-- Lines 207-209: a non-empty target namespace is stamped onto the
document. -/
def stampNamespace (ns : String) (data : Unstructured) : Unstructured :=
  if ns != "" then { data with ns := ns } else data

/-- Lines 267-271: copy the five server-assigned identity fields from the
fetched object onto the desired one. -/
def copyServerIdentity (data data1 : Unstructured) : Unstructured :=
  { data with
    creationTimestamp := data1.creationTimestamp
    generateName := data1.generateName
    generation := data1.generation
    selfLink := data1.selfLink
    resourceVersion := data1.resourceVersion }

/-- The `RETRY:` goto loop of `executeRule` (lines 244-289), re-expressed as
a bounded recursion: `retriesLeft` is `3 - trackRetry`, so the loop body
runs at most four times (`trackRetry <= 3` allows exactly three jumps back
to `RETRY`).  On an update failure carrying the method-not-allowed marker
the delete runs unconditionally (its error is only logged) before the
counter is checked.  The one-second sleep of the custom-operation path is
dropped (pure model). -/
def executeRuleRetryLoop (cl : Client) (res : GroupVersionResource) (isCustomOp : Bool) :
    Nat → Unstructured → List ApiCall × Except RErr Unit
  | retriesLeft, data =>
    match createResource cl res data with
    | (tc, .ok _) => (tc, .ok ())
    | (tc, .error _) =>
      if isCustomOp then
        match deleteResource cl res data with
        | (td, .error e) => (tc ++ td, .error e)
        | (td, .ok _) =>
          match createResource cl res data with
          | (tc2, .error e) => (tc ++ td ++ tc2, .error e)
          | (tc2, .ok _) => (tc ++ td ++ tc2, .ok ())
      else
        match getResource cl res data with
        | (tg, .error e) => (tc ++ tg, .error e)
        | (tg, .ok data1) =>
          let data2 := copyServerIdentity data data1
          match updateResource cl res data2 with
          | (tu, .ok _) => (tc ++ tg ++ tu, .ok ())
          | (tu, .error e) =>
            if e.hasMethodNotAllowedMsg then
              match deleteResource cl res data2 with
              | (td, _) =>
                match retriesLeft with
                | Nat.succ n =>
                  match executeRuleRetryLoop cl res isCustomOp n data2 with
                  | (tr, r) => (tc ++ tg ++ tu ++ td ++ tr, r)
                | 0 => (tc ++ tg ++ tu ++ td, .error e)
            else (tc ++ tg ++ tu, .error e)

/-- `executeRule`: stamp the target namespace, resolve the
GroupVersionResource, then either delete or run the create-or-update retry
loop with `trackRetry` starting at 0 (three retries available). -/
def executeRule (cl : Client) (data0 : Unstructured) (ns : String) (del isCustomOp : Bool) :
    List ApiCall × Except RErr Unit :=
  let data := stampNamespace ns data0
  let res := resolveGVR data.apiVersion data.kind
  if del then deleteResource cl res data
  else executeRuleRetryLoop cl res isCustomOp 3 data

/-! ### Document Splitter (`splitYAML`, lines 1249-1289)

`splitYAML` drives a document-boundary decoder (`NewDocumentDecoder` /
`YAMLDecoder`) in a read loop: every read with a nil error closes the
current chunk and opens the next, `io.ErrShortBuffer` keeps appending to
the current chunk, and the final `io.EOF` read appends one empty trailing
entry (the loop allocates a slot for the chunk the EOF read would have
filled); the NUL padding of the 1000-byte read buffer is trimmed off each
chunk. -/

/-- A lexical document boundary: a line consisting of exactly `---`. -/
def boundaryLine : List Char := ['-', '-', '-']

def splitLinesChars (cs : List Char) : List (List Char) :=
  splitOnChar '\n' cs

/-- Group a list of lines into chunks separated by boundary lines. -/
def chunksOfLines : List (List Char) → List (List (List Char))
  | [] => [[]]
  | l :: ls =>
    if l == boundaryLine then [] :: chunksOfLines ls
    else
      match chunksOfLines ls with
      | [] => [[l]]
      | c :: cs => (l :: c) :: cs

/-- Reassemble the lines of one chunk. -/
def joinLines : List (List Char) → List Char
  | [] => []
  | [l] => l
  | l :: ls => l ++ '\n' :: joinLines ls

/-- Modelled from the spec: the document-boundary decoder
(`NewDocumentDecoder` returning a `*YAMLDecoder`) is code of this
repository that is not under `src/`; per §4.1 of the specification it
performs lexical document-boundary decoding of the stream at the standard
`---` boundary, producing one raw chunk per decoded unit. -/
def decodeDocumentChunks (s : String) : List String :=
  (chunksOfLines (splitLinesChars s.data)).map (fun c => String.mk (joinLines c))

/-- `splitYAML`: the decoder's chunks, in order, plus the empty trailing
entry contributed by the `io.EOF` read of the driving loop. -/
def splitYAML (s : String) : List String :=
  decodeDocumentChunks s ++ [""]

/-- The ordered documents the Apply Orchestrator actually reconciles: the
splitter's output with empty and whitespace-only chunks dropped, exactly
the `strings.TrimSpace(yml) != ""` filter of `applyConfigChange`. -/
def splitterOutput (s : String) : List String :=
  (splitYAML s).filter (fun d => goTrimSpace d != "")

/-! ### Apply Orchestrator (`applyConfigChange`, lines 1181-1205)

`applyRulePayload` parses one document with the external `ghodss/yaml`
converter before handing it (or each member of a `List` document) to
`executeRule`; the parser being an external collaborator, the per-document
outcome is abstracted as an oracle `payload : String → Option RErr`
(`none` = the Go call returned nil).  The loop body is modelled verbatim,
including the `pkg/errors` semantics `errors.Wrap(nil, msg) = nil`: after a
successful payload application with the delete flag set, the wrap of the
nil error is nil and `return err` returns nil, ending the loop. -/

/-- `errors.Wrap` of pkg/errors v0.9.1: nil in, nil out; otherwise the
class is preserved (only the message changes). -/
def goWrapErr (e : Option RErr) : Option RErr := e

/-- The document loop of `applyConfigChange`, returning the documents
passed to `applyRulePayload` (in order) next to the Go result. -/
def applyConfigLoop (payload : String → Option RErr) (del : Bool) :
    List String → List String × Option RErr
  | [] => ([], none)
  | yml :: rest =>
    if goTrimSpace yml != "" then
      match payload yml with
      | some e => ([yml], goWrapErr (some e))
      | none =>
        if del then ([yml], goWrapErr none)
        else
          match applyConfigLoop payload del rest with
          | (docs, r) => (yml :: docs, r)
    else applyConfigLoop payload del rest

/-- `applyConfigChange`: split the manifest, then run the document loop. -/
def applyConfigChange (payload : String → Option RErr) (s : String) (del : Bool) :
    List String × Option RErr :=
  applyConfigLoop payload del (splitYAML s)

/-! ### Event Notifier (`StreamEvents`, lines 1226-1247) -/

inductive EventType where
  | info
  | error
  deriving DecidableEq, Repr

/-- `meshes.EventsResponse`. -/
structure EventsResponse where
  operationId : String
  eventType : EventType
  summary : String
  details : String
  deriving DecidableEq, Repr

/-- The receive/send loop of `StreamEvents`, abstracted over the stream's
send outcome (`send ev = none` models a nil `stream.Send` error, `some msg`
a failure).  The Go loop polls the channel forever; the model runs it until
the channel is drained or a send fails.  On a send failure the event is
re-enqueued (the `go func` pushing it back onto `eventChan`, modelled as an
append to the queue) and the wrapped send error is returned. -/
def streamEventsRun (send : EventsResponse → Option String) :
    List EventsResponse → List EventsResponse × Option String
  | [] => ([], none)
  | ev :: rest =>
    match send ev with
    | none => streamEventsRun send rest
    | some msg => (rest ++ [ev], some msg)

/-! ### `ApplyOperation` guards (lines 572-584) -/

/-- One entry of the `supportedOps` registry (an `supportedOperation`
value: display name, category, template reference). -/
structure Operation where
  name : String
  opType : String
  templateName : String
  deriving DecidableEq, Repr

/-- `meshes.ApplyRuleRequest`, reduced to the fields the guards and the
dispatch read. -/
structure ApplyRuleRequest where
  opName : String
  operationId : String
  username : String
  targetNamespace : String
  customBody : String
  deleteOp : Bool
  deriving DecidableEq, Repr

structure ApplyRuleResponse where
  operationId : String
  deriving DecidableEq, Repr

inductive OpGuardErr where
  | nilRequest
  | invalidOpName
  | emptyCustomBody
  deriving DecidableEq, Repr

/-- Go map lookup `supportedOps[arReq.OpName]`, over an association list. -/
def lookupOp (key : String) : List (String × Operation) → Option Operation
  | [] => none
  | (k, op) :: rest => if k == key then some op else lookupOp key rest

/-- The prologue of `ApplyOperation`: the nil-request guard, the
supported-operations lookup, and the empty-custom-body guard, in source
order; only when all three pass does control reach the operation switch,
modelled by the abstract continuation `proceed` (which is what issues any
reconciliation and cluster mutation, reported in its trace). -/
def applyOperation (supportedOps : List (String × Operation)) (customOpCommand : String)
    (proceed : ApplyRuleRequest → Operation → List ApiCall × Except OpGuardErr ApplyRuleResponse)
    (arReq : Option ApplyRuleRequest) : List ApiCall × Except OpGuardErr ApplyRuleResponse :=
  match arReq with
  | none => ([], .error .nilRequest)
  | some r =>
    match lookupOp r.opName supportedOps with
    | none => ([], .error .invalidOpName)
    | some op =>
      if r.opName == customOpCommand && r.customBody == "" then
        ([], .error .emptyCustomBody)
      else proceed r op

/-! ### Helper lemmas on the string splitters -/

theorem splitOnChar_ne_nil (sep : Char) (cs : List Char) : splitOnChar sep cs ≠ [] := by
  induction cs with
  | nil => simp [splitOnChar]
  | cons c cs ih =>
    simp only [splitOnChar]
    split
    · simp
    · cases h : splitOnChar sep cs with
      | nil => simp
      | cons l ls => simp

theorem splitOnChar_of_not_mem (sep : Char) (cs : List Char) (h : sep ∉ cs) :
    splitOnChar sep cs = [cs] := by
  induction cs with
  | nil => rfl
  | cons c cs ih =>
    simp only [List.mem_cons, not_or] at h
    simp only [splitOnChar]
    rw [if_neg (by simpa using Ne.symm h.1), ih h.2]

theorem splitOnChar_append (sep : Char) (xs ys : List Char) :
    splitOnChar sep (xs ++ sep :: ys) = splitOnChar sep xs ++ splitOnChar sep ys := by
  induction xs with
  | nil => simp [splitOnChar]
  | cons c xs ih =>
    simp only [List.cons_append, splitOnChar, List.append_eq, ih]
    by_cases h : (c == sep) = true
    · simp [h]
    · simp only [if_neg h]
      cases hs : splitOnChar sep xs with
      | nil => exact absurd hs (splitOnChar_ne_nil sep xs)
      | cons l ls => simp [hs]

theorem splitOnChar_length (sep : Char) (cs : List Char) :
    (splitOnChar sep cs).length = cs.count sep + 1 := by
  induction cs with
  | nil => rfl
  | cons c cs ih =>
    simp only [splitOnChar, List.count_cons]
    split
    · next h => simp [List.length_cons, ih, beq_iff_eq.mp h]
    · next h =>
      cases hs : splitOnChar sep cs with
      | nil => exact absurd hs (splitOnChar_ne_nil sep cs)
      | cons l ls =>
        have : (c == sep) = false := by simpa using h
        simp [hs, this] at ih ⊢
        omega

theorem mem_splitOnChar_all (p : Char → Bool) (sep : Char) (cs : List Char)
    (hall : ∀ c ∈ cs, p c = true) :
    ∀ l ∈ splitOnChar sep cs, ∀ c ∈ l, p c = true := by
  induction cs with
  | nil =>
    intro l hl
    simp only [splitOnChar, List.mem_singleton] at hl
    subst hl
    simp
  | cons c cs ih =>
    have hc := hall c (by simp)
    have htail : ∀ x ∈ cs, p x = true := fun x hx => hall x (by simp [hx])
    intro l hl
    simp only [splitOnChar] at hl
    split at hl
    · rcases List.mem_cons.mp hl with h | h
      · subst h; simp
      · exact ih htail l h
    · cases hs : splitOnChar sep cs with
      | nil => exact absurd hs (splitOnChar_ne_nil sep cs)
      | cons m ms =>
        simp only [hs] at hl
        rcases List.mem_cons.mp hl with h | h
        · subst h
          intro x hx
          rcases List.mem_cons.mp hx with h | h
          · subst h; exact hc
          · exact ih htail m (by simp [hs]) x h
        · exact ih htail l (by simp [hs, h])

theorem goSplit_data (s : String) (sep : Char) :
    goSplit s sep = (splitOnChar sep s.data).map String.mk := rfl

/-! ### C6: resource resolution -/

/-- A concrete registryless client whose namespaced create always answers
"already exists" and whose deletes succeed; used as a counterexample /
witness oracle. -/
def apiAlreadyExists : Api where
  createFn := fun _ _ _ => .error .alreadyExists
  updateFn := fun _ _ _ => .error .otherErr
  getFn := fun _ _ _ => .error .notFound
  deleteFn := fun _ _ _ => .ok ()

def clientAlreadyExists : Client :=
  { api := apiAlreadyExists }

/-- A concrete ServiceEntry document carrying its own namespace. -/
def docServiceEntry : Unstructured :=
  { apiVersion := "networking.istio.io/v1alpha3", kind := "ServiceEntry",
    name := "example", ns := "foo" }

/-- C6, counterexample: the claim reads "if apiVersion contains a `/` the
left side is the group and the right side is the version", but for an
apiVersion with two slashes (`"a/b/c"`, which does contain a `/`), the code
leaves both group and version empty: `strings.Split` yields three parts and
neither the `len == 2` nor the `len == 1` branch fires, so no reading of
"left/right side of the slash" matches the resolved descriptor. -/
theorem c6_resolution_counterexample :
    ("a/b/c".data.count '/' = 2) ∧
    resolveGVR "a/b/c" "Deployment" =
      { group := "", version := "", resource := "deployments" } ∧
    (splitGroupVersion "a/b/c").1 ≠ "a" ∧ (splitGroupVersion "a/b/c").2 ≠ "b/c" ∧
    (splitGroupVersion "a/b/c").1 ≠ "a/b" ∧ (splitGroupVersion "a/b/c").2 ≠ "c" := by
  refine ⟨by decide, by decide, by decide, by decide, by decide, by decide⟩

theorem string_mk_data (s : String) : String.mk s.data = s := rfl

theorem string_data_append (a b : String) : (a ++ b).data = a.data ++ b.data := rfl

/-- C6 (amended): resource resolution is deterministic from apiVersion and
kind; if apiVersion splits on `/` into exactly two parts the left part is
the group and the right the version, if it has no `/` the group is empty
and the whole string is the version, and with two or more slashes both
group and version are resolved empty; `ServiceEntry` with
`networking.istio.io/v1alpha3` resolves through the irregular-plural
exception table to `serviceentries`, and `Deployment` with `apps/v1`
resolves through the naive lower-case-plus-`s` fallback to
`deployments`. -/
theorem c6_resolution_amended :
    (∀ apiVersion kind : String, '/' ∉ apiVersion.data →
        resolveGVR apiVersion kind =
          { group := "", version := apiVersion, resource := pluralizeKind (goToLower kind) }) ∧
    (∀ g v kind : String, '/' ∉ g.data → '/' ∉ v.data →
        resolveGVR (g ++ "/" ++ v) kind =
          { group := g, version := v, resource := pluralizeKind (goToLower kind) }) ∧
    (∀ apiVersion kind : String, 2 ≤ apiVersion.data.count '/' →
        resolveGVR apiVersion kind =
          { group := "", version := "", resource := pluralizeKind (goToLower kind) }) ∧
    resolveGVR "networking.istio.io/v1alpha3" "ServiceEntry" =
      { group := "networking.istio.io", version := "v1alpha3", resource := "serviceentries" } ∧
    resolveGVR "apps/v1" "Deployment" =
      { group := "apps", version := "v1", resource := "deployments" } := by
  refine ⟨?_, ?_, ?_, by decide, by decide⟩
  · intro apiVersion kind h
    have hs : splitOnChar '/' apiVersion.data = [apiVersion.data] :=
      splitOnChar_of_not_mem _ _ h
    simp [resolveGVR, splitGroupVersion, goSplit, hs, string_mk_data]
  · intro g v kind hg hv
    have hdata : (g ++ "/" ++ v).data = g.data ++ '/' :: v.data := by
      simp [string_data_append]
    have hs : splitOnChar '/' (g.data ++ '/' :: v.data) = [g.data, v.data] := by
      rw [splitOnChar_append, splitOnChar_of_not_mem _ _ hg,
        splitOnChar_of_not_mem _ _ hv]
      rfl
    simp [resolveGVR, splitGroupVersion, goSplit, hdata, hs, string_mk_data]
  · intro apiVersion kind h
    have hl : (goSplit apiVersion '/').length = apiVersion.data.count '/' + 1 := by
      simp [goSplit, splitOnChar_length]
    have h2 : ((goSplit apiVersion '/').length == 2) = false := by
      simp only [beq_eq_false_iff_ne, ne_eq, hl]
      omega
    have h1 : ((goSplit apiVersion '/').length == 1) = false := by
      simp only [beq_eq_false_iff_ne, ne_eq, hl]
      omega
    simp [resolveGVR, splitGroupVersion, h2, h1]

/-- Closed instantiation of `c6_resolution_amended` at concrete inputs. -/
theorem c6_resolution_amended_witness :
    resolveGVR "v1" "Pod" = { group := "", version := "v1", resource := "pods" } ∧
    resolveGVR "a/b/c" "Pod" = { group := "", version := "", resource := "pods" } :=
  ⟨c6_resolution_amended.1 "v1" "Pod" (by decide),
   c6_resolution_amended.2.2.1 "a/b/c" "Pod" (by decide)⟩

/-! ### C8: splitter edge cases -/

theorem chunksOfLines_ne_nil (ls : List (List Char)) : chunksOfLines ls ≠ [] := by
  induction ls with
  | nil => simp [chunksOfLines]
  | cons l ls ih =>
    simp only [chunksOfLines]
    split
    · simp
    · cases h : chunksOfLines ls with
      | nil => simp
      | cons c cs => simp

theorem chunksOfLines_append_boundary (ls ms : List (List Char)) :
    chunksOfLines (ls ++ boundaryLine :: ms) = chunksOfLines ls ++ chunksOfLines ms := by
  induction ls with
  | nil => simp [chunksOfLines]
  | cons l ls ih =>
    simp only [List.cons_append, chunksOfLines, List.append_eq, ih]
    by_cases h : (l == boundaryLine) = true
    · simp [h]
    · simp only [if_neg h]
      cases hs : chunksOfLines ls with
      | nil => exact absurd hs (chunksOfLines_ne_nil ls)
      | cons c cs => simp [hs]

theorem chunksOfLines_of_no_boundary (ls : List (List Char))
    (h : ∀ l ∈ ls, (l == boundaryLine) = false) : chunksOfLines ls = [ls] := by
  induction ls with
  | nil => rfl
  | cons l ls ih =>
    simp only [chunksOfLines]
    rw [if_neg (by simp [h l (by simp)]), ih (fun x hx => h x (by simp [hx]))]

theorem joinLines_splitLines (cs : List Char) : joinLines (splitLinesChars cs) = cs := by
  induction cs with
  | nil => rfl
  | cons c cs ih =>
    simp only [splitLinesChars, splitOnChar] at ih ⊢
    by_cases h : (c == '\n') = true
    · rw [if_pos h]
      cases hs : splitOnChar '\n' cs with
      | nil => exact absurd hs (splitOnChar_ne_nil _ _)
      | cons l ls =>
        rw [hs] at ih
        have hcn : c = '\n' := beq_iff_eq.mp h
        subst hcn
        simp [joinLines, ih]
    · rw [if_neg h]
      cases hs : splitOnChar '\n' cs with
      | nil => exact absurd hs (splitOnChar_ne_nil _ _)
      | cons l ls =>
        rw [hs] at ih
        cases ls with
        | nil =>
          simp only [joinLines] at ih ⊢
          rw [ih]
        | cons l2 ls2 =>
          simp only [joinLines, List.cons_append] at ih ⊢
          rw [ih]

theorem goTrimSpaceL_eq_nil (cs : List Char) (h : ∀ c ∈ cs, goIsSpace c = true) :
    goTrimSpaceL cs = [] := by
  have h1 : cs.dropWhile goIsSpace = [] := List.dropWhile_eq_nil_iff.mpr h
  simp [goTrimSpaceL, dropTrailing, h1]

/-- C8: the Document Splitter pipeline (`splitYAML` plus the
`strings.TrimSpace(yml) != ""` drop of `applyConfigChange`) yields an empty
document sequence on a stream of pure whitespace, is unchanged by a
trailing `---` boundary marker with no content after it (so no spurious
empty entry), and never emits an empty or whitespace-only chunk. -/
theorem c8_splitter_edge_cases :
    (∀ s : String, (∀ c ∈ s.data, goIsSpace c = true) → splitterOutput s = []) ∧
    (∀ s : String, splitterOutput (s ++ "\n---") = splitterOutput s) ∧
    (∀ s : String, ∀ d ∈ splitterOutput s, goTrimSpace d ≠ "") := by
  refine ⟨?_, ?_, ?_⟩
  · intro s hall
    have hlines := mem_splitOnChar_all goIsSpace '\n' s.data hall
    have hnb : ∀ l ∈ splitLinesChars s.data, (l == boundaryLine) = false := by
      intro l hl
      by_contra hb
      simp only [Bool.not_eq_false, beq_iff_eq] at hb
      have hdash := hlines l hl '-' (by simp [hb, boundaryLine])
      simp [goIsSpace] at hdash
    have hchunks : chunksOfLines (splitLinesChars s.data) = [splitLinesChars s.data] :=
      chunksOfLines_of_no_boundary _ hnb
    have hdec : decodeDocumentChunks s = [s] := by
      simp only [decodeDocumentChunks, hchunks, List.map_cons, List.map_nil,
        joinLines_splitLines]
    have htrim : goTrimSpace s = "" := by
      simp [goTrimSpace, goTrimSpaceL_eq_nil s.data hall]
    have h0 : (goTrimSpace "" != "") = false := by decide
    have h1 : (("" : String) != "") = false := by decide
    simp [splitterOutput, splitYAML, hdec, List.filter_cons, htrim, h0, h1]
  · intro s
    have hdata : (s ++ "\n---").data = s.data ++ '\n' :: boundaryLine := rfl
    have hb : splitOnChar '\n' boundaryLine = [boundaryLine] := by decide
    have hlines : splitLinesChars (s.data ++ '\n' :: boundaryLine) =
        splitLinesChars s.data ++ [boundaryLine] := by
      simp [splitLinesChars, splitOnChar_append, hb]
    have hchunks : chunksOfLines (splitLinesChars s.data ++ [boundaryLine]) =
        chunksOfLines (splitLinesChars s.data) ++ [[]] := by
      simpa [chunksOfLines]
        using chunksOfLines_append_boundary (splitLinesChars s.data) []
    have hdec : decodeDocumentChunks (s ++ "\n---") = decodeDocumentChunks s ++ [""] := by
      simp [decodeDocumentChunks, hdata, hlines, hchunks, joinLines]
    have h0 : (goTrimSpace "" != "") = false := by decide
    simp [splitterOutput, splitYAML, hdec, List.filter_append, List.filter_cons, h0]
  · intro s d hd
    simp only [splitterOutput] at hd
    have := (List.mem_filter.mp hd).2
    simpa using this

/-- Closed instantiation of `c8_splitter_edge_cases` at concrete inputs. -/
theorem c8_splitter_edge_cases_witness :
    splitterOutput "  \n\t " = [] ∧
    splitterOutput ("a: b" ++ "\n---") = splitterOutput "a: b" :=
  ⟨c8_splitter_edge_cases.1 "  \n\t " (by decide),
   c8_splitter_edge_cases.2.1 "a: b"⟩

/-! ### C1: already-exists conflict handling -/

/-- C1, counterexample: with a client whose namespaced create answers
"already exists", a standard (non-custom) apply returns success after the
single create call — no get is issued, no identity fields are copied and no
update is attempted, because `createResource` filters `IsAlreadyExists`
down to a nil error (the condition `err != nil && !IsAlreadyExists(err)`
fails and control reaches `return nil`) and `executeRule` enters its
fetch/copy/update branch only on a non-nil `createResource` error. -/
theorem c1_conflict_counterexample :
    apiAlreadyExists.createFn (resolveGVR "networking.istio.io/v1alpha3" "ServiceEntry")
        (some "foo") docServiceEntry = .error .alreadyExists ∧
    executeRule clientAlreadyExists docServiceEntry "" false false =
      ([nsCall .create (resolveGVR "networking.istio.io/v1alpha3" "ServiceEntry")
          "foo" "example"], .ok ()) ∧
    (executeRule clientAlreadyExists docServiceEntry "" false false).1.filter
        (fun c => c.verb == Verb.get || c.verb == Verb.update) = [] :=
  ⟨rfl, rfl, rfl⟩

/-- C1 (amended): when the initial (namespaced) create of a standard
operation fails because the object already exists, the conflict is indeed
not an error to the caller, but the Reconciler performs no fetch of the
existing object, copies no identity fields and attempts no update: the
apply returns success immediately after that one create call.  The
fetch/copy/update branch runs only when `createResource` returns an error,
which an already-exists response never produces. -/
theorem c1_conflict_amended (cl : Client) (data : Unstructured) (ns : String)
    (h : cl.api.createFn
          (resolveGVR (stampNamespace ns data).apiVersion (stampNamespace ns data).kind)
          (some (stampNamespace ns data).ns) (stampNamespace ns data) =
        .error .alreadyExists) :
    executeRule cl data ns false false =
      ([nsCall .create
          (resolveGVR (stampNamespace ns data).apiVersion (stampNamespace ns data).kind)
          (stampNamespace ns data).ns (stampNamespace ns data).name], .ok ()) := by
  simp [executeRule, executeRuleRetryLoop, createResource, h, KubeErr.isAlreadyExists]

/-- Closed instantiation of `c1_conflict_amended`. -/
theorem c1_conflict_amended_witness :
    executeRule clientAlreadyExists docServiceEntry "" false false =
      ([nsCall .create
          (resolveGVR (stampNamespace "" docServiceEntry).apiVersion
            (stampNamespace "" docServiceEntry).kind)
          (stampNamespace "" docServiceEntry).ns (stampNamespace "" docServiceEntry).name],
        .ok ()) :=
  c1_conflict_amended clientAlreadyExists docServiceEntry "" rfl

/-! ### C3: namespace stamping -/

/-- C3, counterexample: `executeRule` stamps a non-empty target namespace
unconditionally (`if namespace != "" { data.SetNamespace(namespace) }`), so
a document carrying its own `metadata.namespace` (`"foo"`) does not keep
it: the reconciliation addresses the target namespace (`"bar"`)
instead. -/
theorem c3_namespace_counterexample :
    docServiceEntry.ns = "foo" ∧
    (stampNamespace "bar" docServiceEntry).ns = "bar" ∧
    executeRule clientAlreadyExists docServiceEntry "bar" true false =
      ([nsCall .delete (resolveGVR "networking.istio.io/v1alpha3" "ServiceEntry")
          "bar" "example"], .ok ()) :=
  ⟨rfl, rfl, rfl⟩

/-- C3 (amended): if a non-empty target namespace is supplied it is stamped
onto every document before reconciliation unconditionally, overriding any
namespace the document carries; a document keeps its own
`metadata.namespace` only when the supplied target namespace is empty. -/
theorem c3_namespace_amended (ns : String) (data : Unstructured) (h : ns ≠ "") :
    stampNamespace ns data = { data with ns := ns } ∧
    ∀ (cl : Client) (del isCustomOp : Bool),
      executeRule cl data ns del isCustomOp =
        executeRule cl { data with ns := ns } "" del isCustomOp := by
  have hb : (ns != "") = true := bne_iff_ne.mpr h
  have h0 : (("" : String) != "") = false := by decide
  constructor
  · simp [stampNamespace, hb]
  · intro cl del isCustomOp
    simp [executeRule, stampNamespace, hb, h0]

/-- Closed instantiation of `c3_namespace_amended`. -/
theorem c3_namespace_amended_witness :
    stampNamespace "bar" docServiceEntry = { docServiceEntry with ns := "bar" } ∧
    executeRule clientAlreadyExists docServiceEntry "bar" true false =
      executeRule clientAlreadyExists { docServiceEntry with ns := "bar" } "" true false :=
  ⟨(c3_namespace_amended "bar" docServiceEntry (by decide)).1,
   (c3_namespace_amended "bar" docServiceEntry (by decide)).2 clientAlreadyExists true false⟩

/-! ### C5: default-namespace guard -/

/-- C5: a delete whose resolved resource is `namespaces` and whose document
name is `default` is a no-op that reports success without issuing any call
to the API surface (the guard returns nil before any delete call). -/
theorem c5_default_namespace_guard (cl : Client) (res : GroupVersionResource)
    (data : Unstructured) (hnil : cl.dynamicClientIsNil = false)
    (hres : res.resource = "namespaces") (hname : data.name = "default") :
    deleteResource cl res data = ([], .ok ()) := by
  simp [deleteResource, hnil, hres, hname]

def docDefaultNamespace : Unstructured :=
  { apiVersion := "v1", kind := "Namespace", name := "default" }

/-- Closed instantiation of `c5_default_namespace_guard`. -/
theorem c5_default_namespace_guard_witness :
    deleteResource clientAlreadyExists (resolveGVR "v1" "Namespace") docDefaultNamespace =
      ([], .ok ()) :=
  c5_default_namespace_guard clientAlreadyExists (resolveGVR "v1" "Namespace")
    docDefaultNamespace rfl rfl rfl

/-! ### C7: deployment scale-down before delete -/

theorem getResource_verbs (cl : Client) (res : GroupVersionResource) (data : Unstructured) :
    ∀ c ∈ (getResource cl res data).1, c.verb = Verb.get := by
  cases hg : cl.api.getFn res (some data.ns) data.name with
  | ok o => simp [getResource, hg, nsCall]
  | error e =>
    cases hg2 : cl.api.getFn res none data.name with
    | ok o => simp [getResource, hg, hg2, nsCall, clusterCall]
    | error e2 => simp [getResource, hg, hg2, nsCall, clusterCall]

theorem updateResource_verbs (cl : Client) (res : GroupVersionResource) (data : Unstructured) :
    ∀ c ∈ (updateResource cl res data).1, c.verb = Verb.update := by
  cases hu : cl.api.updateFn res (some data.ns) data with
  | ok o => simp [updateResource, hu, nsCall]
  | error e =>
    by_cases hm : e.hasMethodNotAllowedMsg = true
    · simp [updateResource, hu, hm, nsCall]
    · cases hu2 : cl.api.updateFn res none data with
      | ok o =>
        simp [updateResource, hu, hu2, hm, nsCall, clusterCall]
      | error e2 =>
        simp [updateResource, hu, hu2, hm, nsCall, clusterCall]

/-- C7: for a delete whose resolved resource is `deployments`, the
Reconciler first reads the current object, sets its spec replica count to
zero, writes that object back via update, and only then issues the delete;
a failure of the read or of the write-back aborts the delete (no delete
call appears in the trace) and surfaces that error. -/
theorem c7_deployment_scale_down (cl : Client) (res : GroupVersionResource)
    (data : Unstructured) (hnil : cl.dynamicClientIsNil = false)
    (hres : res.resource = "deployments") :
    (∀ e, (getResource cl res data).2 = .error e →
        deleteResource cl res data = ((getResource cl res data).1, .error e) ∧
        ∀ c ∈ (getResource cl res data).1, c.verb ≠ Verb.delete) ∧
    (∀ obj sp e, (getResource cl res data).2 = .ok obj → obj.spec = some sp →
        (updateResource cl res { obj with spec := some (scaleToZero sp) }).2 = .error e →
        deleteResource cl res data =
          ((getResource cl res data).1 ++
            (updateResource cl res { obj with spec := some (scaleToZero sp) }).1,
            .error e) ∧
        ∀ c ∈ (getResource cl res data).1 ++
            (updateResource cl res { obj with spec := some (scaleToZero sp) }).1,
          c.verb ≠ Verb.delete) ∧
    (∀ obj sp, (getResource cl res data).2 = .ok obj → obj.spec = some sp →
        (updateResource cl res { obj with spec := some (scaleToZero sp) }).2 = .ok () →
        deleteResource cl res data =
          ((getResource cl res data).1 ++
            (updateResource cl res { obj with spec := some (scaleToZero sp) }).1 ++
            (rawDeleteResource cl res data).1,
            (rawDeleteResource cl res data).2) ∧
        (scaleToZero sp).replicas = 0) := by
  have hguard : (res.resource == "namespaces" && data.name == "default") = false := by
    simp [hres]
  have hdep : (res.resource == "deployments") = true := by simp [hres]
  refine ⟨?_, ?_, ?_⟩
  · intro e he
    rcases hg : getResource cl res data with ⟨t1, r1⟩
    rw [hg] at he
    simp only at he
    subst he
    constructor
    · simp [deleteResource, hnil, hguard, hdep, hg]
    · intro c hc
      have hv := getResource_verbs cl res data c (by rw [hg]; exact hc)
      rw [hv]
      decide
  · intro obj sp e hgok hsp hue
    rcases hg : getResource cl res data with ⟨t1, r1⟩
    rcases hu : updateResource cl res { obj with spec := some (scaleToZero sp) } with ⟨t2, r2⟩
    rw [hg] at hgok
    rw [hu] at hue
    simp only at hgok hue
    subst hgok
    subst hue
    constructor
    · simp [deleteResource, hnil, hguard, hdep, hg, hsp, hu]
    · intro c hc
      rcases List.mem_append.mp hc with h | h
      · have hv := getResource_verbs cl res data c (by rw [hg]; exact h)
        rw [hv]; decide
      · have hv := updateResource_verbs cl res { obj with spec := some (scaleToZero sp) } c
          (by rw [hu]; exact h)
        rw [hv]; decide
  · intro obj sp hgok hsp huok
    rcases hg : getResource cl res data with ⟨t1, r1⟩
    rcases hu : updateResource cl res { obj with spec := some (scaleToZero sp) } with ⟨t2, r2⟩
    rw [hg] at hgok
    rw [hu] at huok
    simp only at hgok huok
    subst hgok
    subst huok
    constructor
    · simp [deleteResource, hnil, hguard, hdep, hg, hsp, hu]
    · rfl

/-- The deployment object served by the concrete witness oracle. -/
def fetchedDeployment : Unstructured :=
  { kind := "Deployment", name := "web", ns := "prod", spec := some { replicas := 3 } }

/-- A concrete client for the deployments delete path: get returns a
deployment with three replicas, update and delete succeed. -/
def apiDeployment : Api where
  createFn := fun _ _ _ => .ok ()
  updateFn := fun _ _ _ => .ok ()
  getFn := fun _ _ _ => .ok fetchedDeployment
  deleteFn := fun _ _ _ => .ok ()

def clientDeployment : Client :=
  { api := apiDeployment }

def docDeployment : Unstructured :=
  { apiVersion := "apps/v1", kind := "Deployment", name := "web", ns := "prod" }

/-- Closed instantiation of `c7_deployment_scale_down` (successful path). -/
theorem c7_deployment_scale_down_witness :
    deleteResource clientDeployment (resolveGVR "apps/v1" "Deployment") docDeployment =
      ((getResource clientDeployment (resolveGVR "apps/v1" "Deployment") docDeployment).1 ++
        (updateResource clientDeployment (resolveGVR "apps/v1" "Deployment")
          { fetchedDeployment with spec := some (scaleToZero { replicas := 3 }) }).1 ++
        (rawDeleteResource clientDeployment (resolveGVR "apps/v1" "Deployment") docDeployment).1,
        (rawDeleteResource clientDeployment (resolveGVR "apps/v1" "Deployment") docDeployment).2) ∧
    (scaleToZero { replicas := 3 }).replicas = 0 :=
  (c7_deployment_scale_down clientDeployment (resolveGVR "apps/v1" "Deployment") docDeployment
    rfl rfl).2.2 fetchedDeployment { replicas := 3 } rfl rfl rfl

/-! ### C4: bounded delete-recreate retry -/

theorem copyServerIdentity_ns (d d1 : Unstructured) : (copyServerIdentity d d1).ns = d.ns := rfl

theorem copyServerIdentity_name (d d1 : Unstructured) :
    (copyServerIdentity d d1).name = d.name := rfl

theorem createResource_const_err (cl : Client) (res : GroupVersionResource) (ce : KubeErr)
    (hc : ∀ r n d, cl.api.createFn r n d = .error ce) (hce : ce.isAlreadyExists = false)
    (d : Unstructured) :
    createResource cl res d =
      ([nsCall .create res d.ns d.name, clusterCall .create res d.name],
        .error (.kube ce)) := by
  simp [createResource, hc, hce]

theorem getResource_const_ok (cl : Client) (res : GroupVersionResource)
    (gf : GroupVersionResource → Option String → String → Unstructured)
    (hg : ∀ r n nm, cl.api.getFn r n nm = .ok (gf r n nm)) (d : Unstructured) :
    getResource cl res d =
      ([nsCall .get res d.ns d.name], .ok (gf res (some d.ns) d.name)) := by
  simp [getResource, hg]

theorem updateResource_const_mna (cl : Client) (res : GroupVersionResource)
    (hu : ∀ r n d, cl.api.updateFn r n d = .error .methodNotAllowed) (d : Unstructured) :
    updateResource cl res d =
      ([nsCall .update res d.ns d.name], .error (.kube .methodNotAllowed)) := by
  simp [updateResource, hu, KubeErr.hasMethodNotAllowedMsg]

theorem rawDeleteResource_verbs (cl : Client) (res : GroupVersionResource) (d : Unstructured) :
    ∀ c ∈ (rawDeleteResource cl res d).1, c.verb = Verb.delete := by
  cases hd : cl.api.deleteFn res (some d.ns) d.name with
  | ok o => simp [rawDeleteResource, hd, nsCall]
  | error e =>
    cases hd2 : cl.api.deleteFn res none d.name with
    | ok o => simp [rawDeleteResource, hd, hd2, nsCall, clusterCall]
    | error e2 => simp [rawDeleteResource, hd, hd2, nsCall, clusterCall]

/-- `deleteResource` never issues a create call, whatever branch it takes. -/
theorem deleteResource_not_create (cl : Client) (res : GroupVersionResource)
    (d : Unstructured) :
    ∀ c ∈ (deleteResource cl res d).1, c.verb ≠ Verb.create := by
  intro c hc
  unfold deleteResource at hc
  split at hc
  · simp at hc
  · split at hc
    · simp at hc
    · split at hc
      · split at hc
        · next t1 e heq =>
          simp only at hc
          have := getResource_verbs cl res d c (by rw [heq]; exact hc)
          simp [this]
        · next t1 data1 heq =>
          split at hc
          · simp only at hc
            have := getResource_verbs cl res d c (by rw [heq]; exact hc)
            simp [this]
          · next sp hsp =>
            split at hc
            · next t2 e hequ =>
              simp only at hc
              rcases List.mem_append.mp hc with h | h
              · have := getResource_verbs cl res d c (by rw [heq]; exact h)
                simp [this]
              · have := updateResource_verbs cl res
                  { data1 with spec := some (scaleToZero sp) } c (by rw [hequ]; exact h)
                simp [this]
            · next t2 u hequ =>
              split at hc
              next t3 r3 heqr =>
                simp only at hc
                rcases List.mem_append.mp hc with h | h
                · rcases List.mem_append.mp h with h2 | h2
                  · have := getResource_verbs cl res d c (by rw [heq]; exact h2)
                    simp [this]
                  · have := updateResource_verbs cl res
                      { data1 with spec := some (scaleToZero sp) } c (by rw [hequ]; exact h2)
                    simp [this]
                · have := rawDeleteResource_verbs cl res d c (by rw [heqr]; exact h)
                  simp [this]
      · have := rawDeleteResource_verbs cl res d c hc
        simp [this]

/-- C4: if, during apply of a standard operation, every create attempt
fails with a non-already-exists error (so the update branch is reached) and
every update attempt is rejected with the "server does not allow this
method on the requested resource" error, the Reconciler gives up after
exactly 3 delete-recreate cycles — four create attempts in all, the
initial one plus three retries of the `RETRY` goto — and returns the last
underlying method-not-allowed error, never looping indefinitely (the loop
is a total bounded recursion). -/
theorem c4_retry_bound (cl : Client) (data : Unstructured) (ns : String) (ce : KubeErr)
    (gf : GroupVersionResource → Option String → String → Unstructured)
    (hc : ∀ r n d, cl.api.createFn r n d = .error ce)
    (hce : ce.isAlreadyExists = false)
    (hg : ∀ r n nm, cl.api.getFn r n nm = .ok (gf r n nm))
    (hu : ∀ r n d, cl.api.updateFn r n d = .error .methodNotAllowed) :
    (executeRule cl data ns false false).2 = .error (.kube .methodNotAllowed) ∧
    ((executeRule cl data ns false false).1.filter
        (fun c => c.verb == Verb.create && c.namespaced)).length = 4 := by
  set d0 := stampNamespace ns data with hd0
  set res := resolveGVR d0.apiVersion d0.kind with hresdef
  have hrun : executeRule cl data ns false false = executeRuleRetryLoop cl res false 3 d0 := rfl
  have step : ∀ (n : Nat) (d : Unstructured),
      executeRuleRetryLoop cl res false (Nat.succ n) d =
        (([nsCall .create res d.ns d.name, clusterCall .create res d.name] ++
            [nsCall .get res d.ns d.name] ++ [nsCall .update res d.ns d.name] ++
            (deleteResource cl res (copyServerIdentity d (gf res (some d.ns) d.name))).1) ++
          (executeRuleRetryLoop cl res false n
            (copyServerIdentity d (gf res (some d.ns) d.name))).1,
         (executeRuleRetryLoop cl res false n
            (copyServerIdentity d (gf res (some d.ns) d.name))).2) := by
    intro n d
    rcases hdel : deleteResource cl res (copyServerIdentity d (gf res (some d.ns) d.name))
      with ⟨td, rd⟩
    rcases hloop : executeRuleRetryLoop cl res false n
        (copyServerIdentity d (gf res (some d.ns) d.name)) with ⟨tr, rr⟩
    conv_lhs => rw [executeRuleRetryLoop]
    rw [createResource_const_err cl res ce hc hce d, getResource_const_ok cl res gf hg d]
    simp only [updateResource_const_mna cl res hu, copyServerIdentity_ns,
      copyServerIdentity_name, RErr.hasMethodNotAllowedMsg, KubeErr.hasMethodNotAllowedMsg,
      hdel, hloop]
    simp
  have base : ∀ d : Unstructured, executeRuleRetryLoop cl res false 0 d =
      ([nsCall .create res d.ns d.name, clusterCall .create res d.name] ++
        [nsCall .get res d.ns d.name] ++ [nsCall .update res d.ns d.name] ++
        (deleteResource cl res (copyServerIdentity d (gf res (some d.ns) d.name))).1,
       .error (.kube .methodNotAllowed)) := by
    intro d
    rcases hdel : deleteResource cl res (copyServerIdentity d (gf res (some d.ns) d.name))
      with ⟨td, rd⟩
    conv_lhs => rw [executeRuleRetryLoop]
    rw [createResource_const_err cl res ce hc hce d, getResource_const_ok cl res gf hg d]
    simp only [updateResource_const_mna cl res hu, copyServerIdentity_ns,
      copyServerIdentity_name, RErr.hasMethodNotAllowedMsg, KubeErr.hasMethodNotAllowedMsg,
      hdel]
    simp
  have hAfilter : ∀ d : Unstructured,
      (([nsCall .create res d.ns d.name, clusterCall .create res d.name] ++
        [nsCall .get res d.ns d.name] ++ [nsCall .update res d.ns d.name] ++
        (deleteResource cl res (copyServerIdentity d (gf res (some d.ns) d.name))).1).filter
          (fun c => c.verb == Verb.create && c.namespaced)).length = 1 := by
    intro d
    have hnd : (deleteResource cl res (copyServerIdentity d (gf res (some d.ns) d.name))).1.filter
        (fun c => c.verb == Verb.create && c.namespaced) = [] := by
      rw [List.filter_eq_nil_iff]
      intro c hc
      have := deleteResource_not_create cl res _ c hc
      simp [this]
    have e1 : (Verb.get == Verb.create) = false := rfl
    have e2 : (Verb.update == Verb.create) = false := rfl
    simp [List.filter_append, hnd, nsCall, clusterCall, e1, e2]
  have stepLen : ∀ (n : Nat) (d : Unstructured),
      (((executeRuleRetryLoop cl res false (Nat.succ n) d).1.filter
          (fun c => c.verb == Verb.create && c.namespaced)).length =
        1 + ((executeRuleRetryLoop cl res false n
            (copyServerIdentity d (gf res (some d.ns) d.name))).1.filter
          (fun c => c.verb == Verb.create && c.namespaced)).length) ∧
      (executeRuleRetryLoop cl res false (Nat.succ n) d).2 =
        (executeRuleRetryLoop cl res false n
          (copyServerIdentity d (gf res (some d.ns) d.name))).2 := by
    intro n d
    rw [step n d]
    constructor
    · rw [List.filter_append, List.length_append, hAfilter d]
    · rfl
  set d1 := copyServerIdentity d0 (gf res (some d0.ns) d0.name) with hd1
  set d2 := copyServerIdentity d1 (gf res (some d1.ns) d1.name) with hd2
  set d3 := copyServerIdentity d2 (gf res (some d2.ns) d2.name) with hd3
  have r3 : (executeRuleRetryLoop cl res false 3 d0).2 =
      (executeRuleRetryLoop cl res false 2 d1).2 := (stepLen 2 d0).2
  have r2 : (executeRuleRetryLoop cl res false 2 d1).2 =
      (executeRuleRetryLoop cl res false 1 d2).2 := (stepLen 1 d1).2
  have r1 : (executeRuleRetryLoop cl res false 1 d2).2 =
      (executeRuleRetryLoop cl res false 0 d3).2 := (stepLen 0 d2).2
  have r0 : (executeRuleRetryLoop cl res false 0 d3).2 = .error (.kube .methodNotAllowed) := by
    rw [base d3]
  have l3 : ((executeRuleRetryLoop cl res false 3 d0).1.filter
      (fun c => c.verb == Verb.create && c.namespaced)).length =
      1 + ((executeRuleRetryLoop cl res false 2 d1).1.filter
        (fun c => c.verb == Verb.create && c.namespaced)).length := (stepLen 2 d0).1
  have l2 : ((executeRuleRetryLoop cl res false 2 d1).1.filter
      (fun c => c.verb == Verb.create && c.namespaced)).length =
      1 + ((executeRuleRetryLoop cl res false 1 d2).1.filter
        (fun c => c.verb == Verb.create && c.namespaced)).length := (stepLen 1 d1).1
  have l1 : ((executeRuleRetryLoop cl res false 1 d2).1.filter
      (fun c => c.verb == Verb.create && c.namespaced)).length =
      1 + ((executeRuleRetryLoop cl res false 0 d3).1.filter
        (fun c => c.verb == Verb.create && c.namespaced)).length := (stepLen 0 d2).1
  have l0 : ((executeRuleRetryLoop cl res false 0 d3).1.filter
      (fun c => c.verb == Verb.create && c.namespaced)).length = 1 := by
    rw [base d3]
    exact hAfilter d3
  constructor
  · rw [hrun, r3, r2, r1, r0]
  · rw [hrun, l3, l2, l1, l0]

/-- A concrete client on which creates persistently fail with a generic
error, updates are always rejected as method-not-allowed, gets succeed and
deletes succeed. -/
def apiMethodNotAllowed : Api where
  createFn := fun _ _ _ => .error .otherErr
  updateFn := fun _ _ _ => .error .methodNotAllowed
  getFn := fun _ _ _ => .ok { name := "existing", ns := "srv" }
  deleteFn := fun _ _ _ => .ok ()

def clientMethodNotAllowed : Client :=
  { api := apiMethodNotAllowed }

/-- Closed instantiation of `c4_retry_bound`. -/
theorem c4_retry_bound_witness :
    (executeRule clientMethodNotAllowed docServiceEntry "" false false).2 =
      .error (.kube .methodNotAllowed) ∧
    ((executeRule clientMethodNotAllowed docServiceEntry "" false false).1.filter
        (fun c => c.verb == Verb.create && c.namespaced)).length = 4 :=
  c4_retry_bound clientMethodNotAllowed docServiceEntry "" .otherErr
    (fun _ _ _ => { name := "existing", ns := "srv" })
    (fun _ _ _ => rfl) rfl (fun _ _ _ => rfl) (fun _ _ _ => rfl)

/-! ### C2: delete pass aborts after the first successful document -/

/-- C2: in a change-set of two non-empty documents processed with the
delete flag and with every per-document deletion succeeding, the Apply
Orchestrator runs the Reconciler over the first document only and then
reports success: after a successful `applyRulePayload` during a delete pass
the loop executes `err = errors.Wrap(err, ...)` on the nil error — which is
nil again under pkg/errors — and returns it, so the second document is
never deleted while the caller is told the change-set succeeded.  Without
the delete flag the same change-set is processed document by document to
the end. -/
theorem c2_delete_early_return :
    applyConfigChange (fun _ => none) "a: 1\n---\nb: 2" true = (["a: 1"], none) ∧
    splitterOutput "a: 1\n---\nb: 2" = ["a: 1", "b: 2"] ∧
    applyConfigChange (fun _ => none) "a: 1\n---\nb: 2" false = (["a: 1", "b: 2"], none) :=
  ⟨rfl, rfl, rfl⟩

/-! ### C9: event redelivery -/

/-- C9: when the send of an event to the streaming consumer fails (after
any number of successfully delivered events), the event is re-enqueued onto
the session's event channel exactly once — the channel afterwards holds the
undelivered remainder plus exactly one extra copy of the failed event — and
the streaming call returns the send error. -/
theorem c9_event_redelivery (send : EventsResponse → Option String)
    (pre rest : List EventsResponse) (ev : EventsResponse) (msg : String)
    (hpre : ∀ e ∈ pre, send e = none) (hev : send ev = some msg) :
    streamEventsRun send (pre ++ ev :: rest) = (rest ++ [ev], some msg) ∧
    (rest ++ [ev]).count ev = rest.count ev + 1 := by
  refine ⟨?_, by simp⟩
  induction pre with
  | nil => simp [streamEventsRun, hev]
  | cons p ps ih =>
    have hp : send p = none := hpre p (by simp)
    have hrec : streamEventsRun send ((p :: ps) ++ ev :: rest) =
        streamEventsRun send (ps ++ ev :: rest) := by
      simp [streamEventsRun, hp]
    rw [hrec]
    exact ih (fun e he => hpre e (by simp [he]))

def eventA : EventsResponse :=
  { operationId := "op1", eventType := .info, summary := "deployed", details := "ok" }

def eventB : EventsResponse :=
  { operationId := "op2", eventType := .error, summary := "failed", details := "boom" }

/-- Closed instantiation of `c9_event_redelivery`: the first event is
delivered, the send of the second fails, and the second ends up back on the
channel exactly once while the error is returned. -/
theorem c9_event_redelivery_witness :
    streamEventsRun (fun e => if e.operationId == "op2" then some "consumer gone" else none)
        ([eventA] ++ eventB :: []) = ([] ++ [eventB], some "consumer gone") ∧
    (([] : List EventsResponse) ++ [eventB]).count eventB =
      ([] : List EventsResponse).count eventB + 1 :=
  c9_event_redelivery (fun e => if e.operationId == "op2" then some "consumer gone" else none)
    [eventA] [] eventB "consumer gone" (by decide) rfl

/-! ### C10: ApplyOperation guards -/

/-- C10: `ApplyOperation` rejects a nil request, an operation key missing
from the supported-operations registry, and the custom operation with an
empty custom body, in each case returning an error immediately with no
reconciliation and no cluster mutation: the trace is empty and the dispatch
continuation `proceed` contributes nothing, whatever it would do. -/
theorem c10_apply_operation_guards (supportedOps : List (String × Operation))
    (customOpCommand : String)
    (proceed : ApplyRuleRequest → Operation →
      List ApiCall × Except OpGuardErr ApplyRuleResponse) :
    applyOperation supportedOps customOpCommand proceed none = ([], .error .nilRequest) ∧
    (∀ r : ApplyRuleRequest, lookupOp r.opName supportedOps = none →
      applyOperation supportedOps customOpCommand proceed (some r) =
        ([], .error .invalidOpName)) ∧
    (∀ (r : ApplyRuleRequest) (op : Operation), lookupOp r.opName supportedOps = some op →
      r.opName = customOpCommand → r.customBody = "" →
      applyOperation supportedOps customOpCommand proceed (some r) =
        ([], .error .emptyCustomBody)) := by
  refine ⟨rfl, ?_, ?_⟩
  · intro r h
    simp [applyOperation, h]
  · intro r op h hkey hbody
    simp only [applyOperation, h]
    simp [hkey, hbody]

def sampleOperation : Operation :=
  { name := "Custom YAML", opType := "custom", templateName := "" }

def guardProceed : ApplyRuleRequest → Operation →
    List ApiCall × Except OpGuardErr ApplyRuleResponse :=
  fun r _ => ([], .ok { operationId := r.operationId })

def reqUnknownOp : ApplyRuleRequest :=
  { opName := "does_not_exist", operationId := "1", username := "", targetNamespace := "",
    customBody := "", deleteOp := false }

def reqEmptyCustom : ApplyRuleRequest :=
  { opName := "custom_yaml", operationId := "2", username := "", targetNamespace := "",
    customBody := "", deleteOp := false }

/-- Closed instantiation of `c10_apply_operation_guards`. -/
theorem c10_apply_operation_guards_witness :
    applyOperation [("custom_yaml", sampleOperation)] "custom_yaml" guardProceed none =
      ([], .error .nilRequest) ∧
    applyOperation [("custom_yaml", sampleOperation)] "custom_yaml" guardProceed
      (some reqUnknownOp) = ([], .error .invalidOpName) ∧
    applyOperation [("custom_yaml", sampleOperation)] "custom_yaml" guardProceed
      (some reqEmptyCustom) = ([], .error .emptyCustomBody) :=
  ⟨(c10_apply_operation_guards [("custom_yaml", sampleOperation)] "custom_yaml" guardProceed).1,
   (c10_apply_operation_guards [("custom_yaml", sampleOperation)] "custom_yaml"
      guardProceed).2.1 reqUnknownOp rfl,
   (c10_apply_operation_guards [("custom_yaml", sampleOperation)] "custom_yaml"
      guardProceed).2.2 reqEmptyCustom sampleOperation rfl rfl rfl⟩

end MesheryIstio
